import Mathlib

/-!
# SignageFlow — a shallow embedding of the pairing / playlist / playback core

This file embeds, in Lean, the client-side core of the SignageFlow digital
signage application and proves the testable properties stated in its
specification.  The embedded pieces are:

* the data model (`Media`, `PlaylistItem`, `ScreenRow`) from the shared
  `types` module and the `screens` table;
* the playlist-editing operations of `ScreenEditorPage.tsx`
  (`addToPlaylist`, `removeFromPlaylist`, `shufflePlaylist`, `savePlaylist`,
  `handleShowPairingCode`);
* the drag-and-drop add path of `ScreenCard.tsx` (`onDrop`, step 3);
* the display client of `DisplayClientPage` (`handlePairing`, the media
  player effect, `handleVideoEnded`, the realtime-update handler, and the
  render function).

The external record store (Supabase) is modelled as a list of screen rows;
`.eq(...).single()` queries are modelled by filtering and requiring exactly
one match, and `.update(...).eq('id', …)` by mapping over the rows.  JavaScript
peculiarities that the source relies on are modelled explicitly:
`x || d` on numbers treats `0` as falsy (`jsOrNat`), `s?.startsWith(p)` on a
nullable string yields false for `null` (`mimeStartsWith`), `toUpperCase`
maps characters to upper case (`jsToUpper`), and `(i + 1) % 0` on a JS number
is `NaN`, modelled by `Option Nat` with `none` for `NaN` (`advanceIndexJs`).
-/

/-- JavaScript `a || b` for a nullable number `a`: both `null`/`undefined` and
`0` are falsy, so the default applies to them. -/
def jsOrNat (a : Option Nat) (b : Nat) : Nat :=
  match a with
  | some n => if n = 0 then b else n
  | none => b

/-- JavaScript `s.startsWith(p)`: `p`'s character sequence is a prefix of
`s`'s. -/
def jsStartsWith (s p : String) : Bool :=
  p.data.isPrefixOf s.data

/-- JavaScript `mt?.startsWith(p)` for a nullable string `mt`: optional
chaining makes the whole expression falsy when `mt` is `null`. -/
def mimeStartsWith (mt : Option String) (p : String) : Bool :=
  match mt with
  | some s => jsStartsWith s p
  | none => false

/-- JavaScript `String.prototype.toUpperCase` (ASCII fragment): upper-cases
every character. -/
def jsToUpper (s : String) : String :=
  String.mk (s.data.map Char.toUpper)

/-- A media record (`Media` in `types`): identity, display name, storage
path, optional byte size, nullable MIME type, nullable intrinsic duration in
seconds.  Fields irrelevant to the verified flows (`user_id`, `created_at`,
the transient signed `url`) are omitted. -/
structure Media where
  id : String
  name : String
  file_path : String
  file_size : Option Nat
  mime_type : Option String
  duration : Option Nat
  deriving Repr, DecidableEq

/-- Type `PlaylistItem extends Media` in `types`: a denormalised snapshot of a
media record embedded in a screen's playlist. -/
abbrev PlaylistItem := Media

/-- A row of the `screens` table, restricted to the fields the verified
flows touch: identity, nullable one-time pairing code, the playlist, and the
online flag. -/
structure ScreenRow where
  id : String
  pairing_code : Option String
  playlist : List PlaylistItem
  is_online : Bool
  deriving Repr, DecidableEq

/-- The record store: the rows of the `screens` table. -/
abbrev Db := List ScreenRow

/-- Query `.select().eq(col, v).single()`: the filtered rows, of which `single`
demands exactly one. -/
def selectSingle (db : Db) (p : ScreenRow → Bool) : Option ScreenRow :=
  match db.filter p with
  | [s] => some s
  | _ => none

/-! ## Owner console: `ScreenEditorPage.tsx` -/

/-- Function `addToPlaylist` (ScreenEditorPage lines 68–75): spreads the media record
into a playlist item whose `duration` is
`media.duration || (media.mime_type?.startsWith('image/') ? 10 : 30)`,
and appends it to the working playlist. -/
def addToPlaylist (playlist : List PlaylistItem) (media : Media) : List PlaylistItem :=
  let item : PlaylistItem :=
    { media with
      duration := some (jsOrNat media.duration
        (if mimeStartsWith media.mime_type "image/" then 10 else 30)) }
  playlist ++ [item]

/-- Function `removeFromPlaylist` (ScreenEditorPage lines 77–80): drops the item at
the given position. -/
def removeFromPlaylist (playlist : List PlaylistItem) (index : Nat) : List PlaylistItem :=
  (playlist.enum.filter (fun x => x.1 ≠ index)).map (·.2)

/-- Function `shufflePlaylist` (ScreenEditorPage lines 82–85):
`[...prev].sort(() => Math.random() - 0.5)`.  The engine's comparison sort
driven by the random comparator is modelled as a merge sort parameterised by
an arbitrary Boolean comparator `r`; every outcome of the random draws is
covered by quantifying over `r`. -/
def shufflePlaylist (r : PlaylistItem → PlaylistItem → Bool)
    (playlist : List PlaylistItem) : List PlaylistItem :=
  playlist.mergeSort r

/-- Function `savePlaylist` (ScreenEditorPage lines 87–101):
`update({ playlist }).eq('id', screenId)` — a whole-value replace of the
`playlist` attribute of the matching rows.  `writeOk` is the outcome of the
network write; on failure the store is untouched and only a toast is shown. -/
def savePlaylist (db : Db) (screenId : String) (playlist : List PlaylistItem)
    (writeOk : Bool) : Db :=
  if writeOk then
    db.map (fun s => if s.id = screenId then { s with playlist := playlist } else s)
  else
    db

/-- Function `handleShowPairingCode` (ScreenEditorPage lines 141–159):
`update({ pairing_code: newCode }).eq('id', screenId)` — writes the freshly
generated code onto the screen row (overwriting any previous code).  On a
failed write the store is untouched. -/
def handleShowPairingCode (db : Db) (screenId : String) (newCode : String)
    (writeOk : Bool) : Db :=
  if writeOk then
    db.map (fun s => if s.id = screenId then { s with pairing_code := some newCode } else s)
  else
    db

/-! ## Drag-and-drop add path: `ScreenCard.tsx` -/

/-- Handler `onDrop`, step 3 (ScreenCard lines 51–65): guards the current playlist
with `Array.isArray` (a `null` column reads as `[]`), builds a playlist item
carrying only `id`, `name`, `file_path` and `mime_type` from the freshly
inserted media row — the absent JSON fields read back as `undefined`, i.e.
`none` — and appends it. -/
def onDropPlaylistUpdate (screenPlaylist : Option (List PlaylistItem))
    (newMedia : Media) : List PlaylistItem :=
  let currentPlaylist := match screenPlaylist with
    | some l => l
    | none => []
  let newPlaylistItem : PlaylistItem :=
    { id := newMedia.id
      name := newMedia.name
      file_path := newMedia.file_path
      mime_type := newMedia.mime_type
      file_size := none
      duration := none }
  currentPlaylist ++ [newPlaylistItem]

/-! ## Display client: `DisplayClientPage` -/

/-- Outcome of `handlePairing`: the store after the attempt, the client's
local binding (`localStorage` slot `signageflow_screen_id`), and whether the
redemption succeeded. -/
structure PairingOutcome where
  db : Db
  binding : Option String
  ok : Bool
  deriving Repr, DecidableEq

/-- Write `update({ pairing_code: null }).eq('id', sid)`: the code-invalidation
write performed on a successful redemption. -/
def clearPairingCode (db : Db) (sid : String) : Db :=
  db.map (fun s => if s.id = sid then { s with pairing_code := none } else s)

/-- Function `handlePairing` (DisplayClientPage lines 96–116): looks up the single
screen whose `pairing_code` equals `toUpperCase` of the input; on a unique
match it clears that screen's code, persists the screen id as the local
binding and succeeds; otherwise (`single()` errors on zero or several rows)
it fails, leaving store and binding untouched. -/
def handlePairing (db : Db) (binding : Option String) (input : String) :
    PairingOutcome :=
  match selectSingle db (fun s => s.pairing_code = some (jsToUpper input)) with
  | some s => ⟨clearPairingCode db s.id, some s.id, true⟩
  | none => ⟨db, binding, false⟩

/-- A display-client playback index is a JavaScript number: `Option Nat`
with `none` playing the role of `NaN` (which `(i + 1) % 0` produces). -/
abbrev JsIdx := Option Nat

/-- Update `(prev + 1) % playlist.length` on a JS number (DisplayClientPage
lines 86 and 93): `NaN` propagates, and a modulus of `0` yields `NaN`. -/
def advanceIndexJs (len : Nat) : JsIdx → JsIdx
  | none => none
  | some i => if len = 0 then none else some ((i + 1) % len)

/-- Test `item.mime_type?.startsWith('video/')`. -/
def isVideo (item : PlaylistItem) : Bool :=
  mimeStartsWith item.mime_type "video/"

/-- The timer scheduled by the media-player effect (DisplayClientPage
lines 70–90), in milliseconds: none when the playlist is empty, when the
current item is `undefined` (`NaN` index or out of range), or when the
current item is a video; otherwise `(duration || 10) * 1000`. -/
def scheduledTimer (playlist : List PlaylistItem) (index : JsIdx) : Option Nat :=
  if playlist.length = 0 then none
  else
    match index with
    | none => none
    | some i =>
      match playlist.get? i with
      | none => none
      | some item =>
        if isVideo item then none
        else some (jsOrNat item.duration 10 * 1000)

/-- The `mediaUrl` state after the media-player effect runs: cleared on an
empty playlist, left as it was when the current item is `undefined`, and the
storage public URL of the current item's path otherwise.  URL resolution by
the object store is opaque; any injective path-to-URL map works. -/
def effectMediaUrl (playlist : List PlaylistItem) (index : JsIdx)
    (old : Option String) : Option String :=
  if playlist.length = 0 then none
  else
    match index with
    | none => old
    | some i =>
      match playlist.get? i with
      | none => old
      | some item => some ("media/" ++ item.file_path)

/-- Playback events observable by the display client: the advance timer
firing, or the `<video>` element's `onEnded` signal. -/
inductive PlayerEvent
  | timerFired
  | videoEnded
  deriving Repr, DecidableEq

/-- One step of the playback state machine: a timer can only fire when the
effect actually scheduled one (a pending timer is cancelled by the effect
cleanup whenever playlist or index change), and `handleVideoEnded`
(DisplayClientPage lines 92–94) performs the modulo increment. -/
def playerStep (playlist : List PlaylistItem) (index : JsIdx) :
    PlayerEvent → JsIdx
  | .timerFired =>
    match scheduledTimer playlist index with
    | some _ => advanceIndexJs playlist.length index
    | none => index
  | .videoEnded => advanceIndexJs playlist.length index

/-- The realtime-update handler (DisplayClientPage lines 51–56): on an
UPDATE notification for the bound screen, replace the in-memory playlist
with the payload's playlist wholesale and reset the index to 0. -/
def handleRealtimeUpdate (_oldPlaylist : List PlaylistItem) (_oldIndex : JsIdx)
    (payloadPlaylist : List PlaylistItem) : List PlaylistItem × JsIdx :=
  (payloadPlaylist, some 0)

/-- What the display client renders (DisplayClientPage lines 118–168). -/
inductive RenderState
  | pairForm
  | idle
  | media (item : PlaylistItem)
  | blank
  deriving Repr, DecidableEq

/-- The render function of the display client: the pairing form when
unbound; the "playlist is empty" idle screen when bound with an empty
playlist; otherwise the current item (a black `blank` frame when the index
does not resolve to an item). -/
def renderDisplay (screenId : Option String) (playlist : List PlaylistItem)
    (index : JsIdx) : RenderState :=
  match screenId with
  | none => .pairForm
  | some _ =>
    if playlist.length = 0 then .idle
    else
      match index with
      | none => .blank
      | some i =>
        match playlist.get? i with
        | some item => .media item
        | none => .blank

/-- Predicate for: `c` equals `C` up to letter case (the spec's case-insensitive match). -/
def eqUpToCase (c C : String) : Bool :=
  jsToUpper c = jsToUpper C

/-! ## Concrete records used to exercise the operations -/

/-- An image playlist item with an explicit 5-second duration (the item
`{image, duration:5}` of the playback scenario). -/
def imageItem5 : PlaylistItem :=
  { id := "m-img", name := "pic.png", file_path := "u1/pic.png",
    file_size := some 2048, mime_type := some "image/png", duration := some 5 }

/-- A video playlist item with no intrinsic duration (the item `{video}` of
the playback scenario). -/
def videoItem : PlaylistItem :=
  { id := "m-vid", name := "clip.mp4", file_path := "u1/clip.mp4",
    file_size := some 4096, mime_type := some "video/mp4", duration := none }

/-- The scenario playlist `[{image, duration:5}, {video}]`. -/
def demoPlaylist : List PlaylistItem := [imageItem5, videoItem]

/-- A PDF media record with no intrinsic duration: a non-video, non-image
MIME type exercising the default-duration rule of `addToPlaylist`. -/
def pdfMedia : Media :=
  { id := "m-doc", name := "menu.pdf", file_path := "u1/menu.pdf",
    file_size := some 512, mime_type := some "application/pdf", duration := none }

/-- Screen `S1` holding the freshly issued pairing code `"AB12CD"`. -/
def screenS1 : ScreenRow :=
  { id := "S1", pairing_code := some "AB12CD", playlist := [], is_online := false }

/-- A store containing only `S1`. -/
def dbPair : Db := [screenS1]

/-- A screen whose stored pairing code contains lower-case letters. -/
def screenLower : ScreenRow :=
  { id := "S2", pairing_code := some "ab12cd", playlist := [], is_online := false }

/-- A store containing only `screenLower`. -/
def dbLower : Db := [screenLower]

/-- A second screen holding its own issued pairing code `"EF34GH"`. -/
def screenS3 : ScreenRow :=
  { id := "S3", pairing_code := some "EF34GH", playlist := [], is_online := true }

/-- A store in which two screens each hold an active pairing code. -/
def dbTwoCodes : Db := [screenS1, screenS3]

/-- The effective duration `addToPlaylist` resolves:
`media.duration || (media.mime_type?.startsWith('image/') ? 10 : 30)`. -/
def resolvedDuration (m : Media) : Nat :=
  jsOrNat m.duration (if mimeStartsWith m.mime_type "image/" then 10 else 30)

/-! ## Helper lemmas -/

/-- When a filter returns the singleton `[s]`, any member of the list
satisfying the predicate is `s` itself. -/
theorem eq_of_filter_eq_singleton {α : Type} {p : α → Bool} :
    ∀ {l : List α} {s : α}, l.filter p = [s] → ∀ t ∈ l, p t → t = s := by
  intro l
  induction l with
  | nil => intro s h; simp at h
  | cons a rest ih =>
    intro s h t ht hp
    by_cases hpa : p a
    · rw [List.filter_cons_of_pos hpa] at h
      obtain ⟨rfl, hrest⟩ := List.cons_eq_cons.mp h
      rcases List.mem_cons.mp ht with rfl | htr
      · rfl
      · exact absurd hp (by simpa using (List.filter_eq_nil_iff.mp hrest) t htr)
    · rw [List.filter_cons_of_neg hpa] at h
      rcases List.mem_cons.mp ht with rfl | htr
      · exact absurd hp hpa
      · exact ih h t htr hp

/-- When a filter returns the singleton `[s]`, `s` is a member satisfying
the predicate. -/
theorem mem_of_filter_eq_singleton {α : Type} {p : α → Bool} {l : List α} {s : α}
    (h : l.filter p = [s]) : s ∈ l ∧ p s = true := by
  have : s ∈ l.filter p := by rw [h]; exact List.mem_singleton_self s
  exact ⟨(List.mem_filter.mp this).1, (List.mem_filter.mp this).2⟩

/-! ## Claim theorems -/

/-- C3: for every playlist of length `L > 0`, starting at index 0, after `N`
advance steps (each advance computing `(index + 1) % L`) the playback index
equals `N % L`; the last index wraps back to 0; a video-end advance and a
fired scheduled timer both perform exactly this modulo increment. -/
theorem playback_index_after_n_advances (L N : Nat) (hL : 0 < L) :
    (advanceIndexJs L)^[N] (some 0) = some (N % L) ∧
    advanceIndexJs L (some (L - 1)) = some 0 ∧
    (∀ (pl : List PlaylistItem) (i : JsIdx),
      playerStep pl i .videoEnded = advanceIndexJs pl.length i) ∧
    (∀ (pl : List PlaylistItem) (i : JsIdx) (t : Nat),
      scheduledTimer pl i = some t →
      playerStep pl i .timerFired = advanceIndexJs pl.length i) := by
  have hne : L ≠ 0 := Nat.pos_iff_ne_zero.mp hL
  refine ⟨?_, ?_, fun pl i => rfl, fun pl i t ht => ?_⟩
  · induction N with
    | zero => simp
    | succ n ihn =>
      rw [Function.iterate_succ_apply', ihn]
      simp [advanceIndexJs, hne, Nat.mod_add_mod]
  · have hsucc : L - 1 + 1 = L := Nat.succ_pred_eq_of_pos hL
    simp [advanceIndexJs, hne, hsucc]
  · simp [playerStep, ht]

/-- Witness for C3 at `L = 3`, `N = 7`. -/
theorem playback_index_after_n_advances_witness :
    (advanceIndexJs 3)^[7] (some 0) = some (7 % 3) :=
  (playback_index_after_n_advances 3 7 (by decide)).1

/-- C6: a change notification replaces the in-memory playlist wholesale and
resets the playback index to 0 unconditionally, whatever the prior playlist
and index were. -/
theorem realtime_update_resets_index (oldPl : List PlaylistItem) (oldIdx : JsIdx)
    (payloadPl : List PlaylistItem) :
    handleRealtimeUpdate oldPl oldIdx payloadPl = (payloadPl, some 0) := rfl

/-- C2 counterexample: for a non-video, non-image media record
(`application/pdf`) with no intrinsic duration, the owner's append operation
stores an effective duration of 30 seconds, not the claimed 10-second
default for every non-video MIME type. -/
theorem addToPlaylist_pdf_defaults_to_thirty :
    mimeStartsWith pdfMedia.mime_type "video/" = false ∧
    pdfMedia.duration = none ∧
    (addToPlaylist [] pdfMedia).map (fun it => it.duration) = [some 30] ∧
    (addToPlaylist [] pdfMedia).map (fun it => it.duration) ≠ [some 10] := by
  decide

/-- C2 amended: the appended item's effective duration equals the media's
own duration when it is set and non-zero, and otherwise defaults to 10
seconds for image MIME types and 30 seconds for every other MIME type
(video included). -/
theorem addToPlaylist_effective_duration (pl : List PlaylistItem) (m : Media) :
    addToPlaylist pl m = pl ++ [{ m with duration := some (resolvedDuration m) }] ∧
    (∀ d, m.duration = some d → d ≠ 0 →
      (addToPlaylist pl m).getLast? = some { m with duration := some d }) ∧
    ((m.duration = none ∨ m.duration = some 0) →
      resolvedDuration m = (if mimeStartsWith m.mime_type "image/" then 10 else 30) ∧
      (addToPlaylist pl m).getLast? = some { m with duration := some (resolvedDuration m) }) := by
  refine ⟨rfl, ?_, ?_⟩
  · intro d hd hd0
    rw [addToPlaylist, List.getLast?_concat]
    simp [resolvedDuration, jsOrNat, hd, hd0]
  · intro h
    refine ⟨?_, by simp [addToPlaylist, List.getLast?_concat, resolvedDuration]⟩
    rcases h with h | h <;> simp [resolvedDuration, jsOrNat, h]

/-- Witness for C2's amended theorem at the PDF record with unset duration. -/
theorem addToPlaylist_effective_duration_witness :
    resolvedDuration pdfMedia =
      (if mimeStartsWith pdfMedia.mime_type "image/" then 10 else 30) :=
  ((addToPlaylist_effective_duration [] pdfMedia).2.2 (Or.inl rfl)).1

/-- C10: the drag-and-drop add path appends exactly one item at the tail,
preserves all prior items in order, and the appended item carries only
`id`, `name`, `file_path` and `mime_type` — its `duration` is absent, so the
display-side resolution `duration || 10` falls back to the 10-second default
whenever a timer is scheduled for it. -/
theorem onDrop_appends_snapshot_without_duration (cur : List PlaylistItem) (m : Media) :
    onDropPlaylistUpdate (some cur) m =
      cur ++ [{ id := m.id, name := m.name, file_path := m.file_path,
                file_size := none, mime_type := m.mime_type, duration := none }] ∧
    (onDropPlaylistUpdate (some cur) m).take cur.length = cur ∧
    (onDropPlaylistUpdate (some cur) m).length = cur.length + 1 ∧
    (∀ it, (onDropPlaylistUpdate (some cur) m).getLast? = some it →
      it.duration = none ∧ jsOrNat it.duration 10 = 10 ∧
      (isVideo it = false →
        scheduledTimer (onDropPlaylistUpdate (some cur) m) (some cur.length) =
          some (10 * 1000))) := by
  refine ⟨rfl, ?_, ?_, ?_⟩
  · rw [onDropPlaylistUpdate]
    exact List.take_left cur _
  · simp [onDropPlaylistUpdate]
  · intro it hit
    rw [onDropPlaylistUpdate, List.getLast?_concat] at hit
    obtain rfl := Option.some_injective _ hit
    refine ⟨rfl, rfl, ?_⟩
    intro hv
    rw [scheduledTimer]
    rw [onDropPlaylistUpdate]
    simp [List.get?_eq_getElem?, List.getElem?_concat_length, hv, jsOrNat]

/-- Witness for C10: dropping the PDF onto a screen with an empty playlist
yields a single item whose scheduled timer is the 10-second default. -/
theorem onDrop_appends_snapshot_without_duration_witness :
    scheduledTimer (onDropPlaylistUpdate (some []) pdfMedia) (some 0) =
      some (10 * 1000) := by
  have h := (onDrop_appends_snapshot_without_duration [] pdfMedia).2.2.2
    { id := pdfMedia.id, name := pdfMedia.name, file_path := pdfMedia.file_path,
      file_size := none, mime_type := pdfMedia.mime_type, duration := none }
    (by decide)
  exact h.2.2 (by decide)

/-- C5: for every outcome of the random comparator, `shufflePlaylist`
produces a permutation of its input — same length, same multiset of items —
and is a no-op on playlists of length at most one. -/
theorem shufflePlaylist_is_permutation (r : PlaylistItem → PlaylistItem → Bool)
    (pl : List PlaylistItem) :
    (shufflePlaylist r pl).Perm pl ∧
    (shufflePlaylist r pl).length = pl.length ∧
    (↑(shufflePlaylist r pl) : Multiset PlaylistItem) = ↑pl ∧
    (pl.length ≤ 1 → shufflePlaylist r pl = pl) := by
  have hperm := List.mergeSort_perm pl r
  refine ⟨hperm, hperm.length_eq, Multiset.coe_eq_coe.mpr hperm, ?_⟩
  intro hlen
  match pl with
  | [] => simp [shufflePlaylist]
  | [a] => simp [shufflePlaylist]
  | a :: b :: t => simp at hlen

/-- Witness for C5 on a one-element playlist: the shuffle is a no-op. -/
theorem shufflePlaylist_is_permutation_witness :
    shufflePlaylist (fun _ _ => false) [imageItem5] = [imageItem5] :=
  (shufflePlaylist_is_permutation (fun _ _ => false) [imageItem5]).2.2.2 (by decide)

/-- C7: entering an index whose item is a video schedules no timer and the
index moves only on the explicit playback-ended signal, which performs the
same modulo increment; on the scenario playlist `[{image, duration:5},
{video}]` the 5-second timer advances to index 1, no timer is scheduled
there, a stray timer event leaves the index at 1, and the end signal wraps
to 0. -/
theorem video_items_advance_only_on_ended :
    (∀ (pl : List PlaylistItem) (i : Nat) (item : PlaylistItem),
      pl.get? i = some item → isVideo item = true →
      scheduledTimer pl (some i) = none ∧
      playerStep pl (some i) .timerFired = some i ∧
      playerStep pl (some i) .videoEnded = advanceIndexJs pl.length (some i)) ∧
    scheduledTimer demoPlaylist (some 0) = some (5 * 1000) ∧
    playerStep demoPlaylist (some 0) .timerFired = some 1 ∧
    scheduledTimer demoPlaylist (some 1) = none ∧
    playerStep demoPlaylist (some 1) .timerFired = some 1 ∧
    playerStep demoPlaylist (some 1) .videoEnded = some 0 := by
  constructor
  · intro pl i item hget hvid
    have hlen : pl.length ≠ 0 := by
      intro h0
      rw [List.length_eq_zero] at h0
      subst h0
      simp at hget
    have hget2 : pl[i]? = some item := by
      rw [← List.get?_eq_getElem?]
      exact hget
    have hsch : scheduledTimer pl (some i) = none := by
      simp [scheduledTimer, hlen, hget2, hvid]
    exact ⟨hsch, by simp [playerStep, hsch], rfl⟩
  · refine ⟨?_, ?_, ?_, ?_, ?_⟩ <;> decide

/-- Witness for C7's general part at the scenario playlist's video item. -/
theorem video_items_advance_only_on_ended_witness :
    scheduledTimer demoPlaylist (some 1) = none ∧
    playerStep demoPlaylist (some 1) .timerFired = some 1 ∧
    playerStep demoPlaylist (some 1) .videoEnded =
      advanceIndexJs demoPlaylist.length (some 1) :=
  video_items_advance_only_on_ended.1 demoPlaylist 1 videoItem (by decide) (by decide)

/-- C9: with an empty playlist the display client schedules no timer, clears
the media URL, renders the idle state, and the advance operation is a total
function whose result (`NaN`, from `% 0`) still renders the idle state — no
crash and no error state. -/
theorem empty_playlist_renders_idle (i : JsIdx) (old : Option String) (sid : String) :
    scheduledTimer [] i = none ∧
    effectMediaUrl [] i old = none ∧
    renderDisplay (some sid) [] i = .idle ∧
    playerStep [] i .videoEnded = none ∧
    renderDisplay (some sid) [] (playerStep [] i .videoEnded) = .idle := by
  refine ⟨rfl, rfl, rfl, ?_, ?_⟩
  · cases i <;> rfl
  · cases i <;> rfl

/-- A successful `.single()` means the filter produced exactly that row. -/
theorem filter_eq_of_selectSingle {db : Db} {p : ScreenRow → Bool} {s : ScreenRow}
    (h : selectSingle db p = some s) : db.filter p = [s] := by
  unfold selectSingle at h
  rcases hf : db.filter p with _ | ⟨a, rest⟩
  · rw [hf] at h
    simp at h
  · rcases rest with _ | ⟨a2, rest2⟩
    · rw [hf] at h
      simp only [Option.some.injEq] at h
      rw [h]
    · rw [hf] at h
      simp at h

/-- C8: when the screen id identifies exactly one row, a successful commit
replaces that row's playlist attribute wholesale (the rest of the row and
all other rows untouched), re-reading the screen yields exactly the
committed sequence, and a failed commit leaves the store untouched. -/
theorem savePlaylist_round_trip (db : Db) (sid : String) (s : ScreenRow)
    (pl : List PlaylistItem) (h : db.filter (fun t => t.id = sid) = [s]) :
    selectSingle (savePlaylist db sid pl true) (fun t => t.id = sid) =
      some { s with playlist := pl } ∧
    (selectSingle (savePlaylist db sid pl true) (fun t => t.id = sid)).map
      (fun t => t.playlist) = some pl ∧
    (∀ t ∈ db, t.id ≠ sid → t ∈ savePlaylist db sid pl true) ∧
    savePlaylist db sid pl false = db := by
  have hsid : s.id = sid := by
    have hm := mem_of_filter_eq_singleton h
    simpa using hm.2
  have hmap : savePlaylist db sid pl true =
      db.map (fun t => if t.id = sid then { t with playlist := pl } else t) := by
    simp [savePlaylist]
  have hfilter : (savePlaylist db sid pl true).filter (fun t => t.id = sid) =
      [{ s with playlist := pl }] := by
    rw [hmap, List.filter_map]
    have hcongr : db.filter
        ((fun t : ScreenRow => decide (t.id = sid)) ∘
          (fun t => if t.id = sid then { t with playlist := pl } else t)) =
        db.filter (fun t => t.id = sid) := by
      refine List.filter_congr ?_
      intro t _
      by_cases ht : t.id = sid <;> simp [ht]
    rw [hcongr, h]
    simp [hsid]
  refine ⟨?_, ?_, ?_, by simp [savePlaylist]⟩
  · rw [selectSingle, hfilter]
  · rw [selectSingle, hfilter]
    rfl
  · intro t ht htid
    rw [hmap]
    have hkeep : (if t.id = sid then { t with playlist := pl } else t) = t :=
      if_neg htid
    exact hkeep ▸ List.mem_map_of_mem _ ht

/-- Witness for C8 on the one-screen store: committing `[imageItem5]` to
`S1` and re-reading yields exactly that playlist. -/
theorem savePlaylist_round_trip_witness :
    (selectSingle (savePlaylist dbPair "S1" [imageItem5] true)
      (fun t => t.id = "S1")).map (fun t => t.playlist) = some [imageItem5] :=
  (savePlaylist_round_trip dbPair "S1" screenS1 [imageItem5] (by decide)).2.1

/-- C1: redeeming a code that exactly one screen currently holds returns
that screen's identifier, clears its pairing code to null, and persists the
identifier as the client's local binding; a code matching no screen fails,
leaving store and binding untouched; in particular a second redemption of
the same, now-cleared code fails and changes nothing. -/
theorem pairing_code_single_redemption (db : Db) (b : Option String) (c : String)
    (s : ScreenRow)
    (h : db.filter (fun t => t.pairing_code = some (jsToUpper c)) = [s]) :
    handlePairing db b c = ⟨clearPairingCode db s.id, some s.id, true⟩ ∧
    (∀ t ∈ clearPairingCode db s.id, t.id = s.id → t.pairing_code = none) ∧
    (∀ t ∈ db, t.id ≠ s.id → t ∈ clearPairingCode db s.id) ∧
    handlePairing (clearPairingCode db s.id) (some s.id) c =
      ⟨clearPairingCode db s.id, some s.id, false⟩ ∧
    (∀ (db2 : Db) (b2 : Option String) (c2 : String),
      db2.filter (fun t => t.pairing_code = some (jsToUpper c2)) = [] →
      handlePairing db2 b2 c2 = ⟨db2, b2, false⟩) := by
  have hfail : ∀ (db2 : Db) (b2 : Option String) (c2 : String),
      db2.filter (fun t => t.pairing_code = some (jsToUpper c2)) = [] →
      handlePairing db2 b2 c2 = ⟨db2, b2, false⟩ := by
    intro db2 b2 c2 h2
    rw [handlePairing, selectSingle, h2]
  have hclear : (clearPairingCode db s.id).filter
      (fun t => t.pairing_code = some (jsToUpper c)) = [] := by
    rw [List.filter_eq_nil_iff]
    intro t ht
    obtain ⟨u, hu, rfl⟩ := List.mem_map.mp ht
    by_cases hui : u.id = s.id
    · simp [hui]
    · rw [if_neg hui]
      intro hp
      have := eq_of_filter_eq_singleton h u hu (by simpa using hp)
      exact hui (by rw [this])
  refine ⟨?_, ?_, ?_, hfail _ _ _ hclear, hfail⟩
  · rw [handlePairing, selectSingle, h]
  · intro t ht htid
    obtain ⟨u, hu, rfl⟩ := List.mem_map.mp ht
    by_cases hui : u.id = s.id
    · simp [hui]
    · rw [if_neg hui] at htid ⊢
      exact absurd htid hui
  · intro t ht htid
    have hkeep : (if t.id = s.id then { t with pairing_code := none } else t) = t :=
      if_neg htid
    exact hkeep ▸ List.mem_map_of_mem _ ht

/-- Witness for C1: redeeming the issued code `"AB12CD"` on the one-screen
store succeeds, binds to `S1`, and clears the code. -/
theorem pairing_code_single_redemption_witness :
    handlePairing dbPair none "AB12CD" =
      ⟨clearPairingCode dbPair screenS1.id, some screenS1.id, true⟩ :=
  (pairing_code_single_redemption dbPair none "AB12CD" screenS1 (by decide)).1

/-- C4 counterexample: a screen whose stored pairing code is the lower-case
`"ab12cd"` is not matched even by the identical submission `"ab12cd"`
(which certainly equals the stored code up to letter case), because the
lookup compares the upper-cased input for exact equality; so redemption is
not case-insensitive for every stored code. -/
theorem pairing_lowercase_stored_code_never_matches :
    eqUpToCase "ab12cd" "ab12cd" = true ∧
    screenLower.pairing_code = some "ab12cd" ∧
    handlePairing dbLower none "ab12cd" = ⟨dbLower, none, false⟩ := by
  decide

/-- C4 amended: redemption upper-cases the submitted code and demands exact
equality with the stored code; for every screen `s` whose stored pairing
code `C` is itself upper-cased (as issued codes such as `"AB12CD"` are —
`C` identifying only `s`, per the spec's code-uniqueness invariant, in a
store with unique row ids), `redeem(c)` succeeds and binds to `s` exactly
when `c` equals `C` up to letter case, and on success clears `s`'s pairing
code to null.  Other screens may hold other active codes. -/
theorem pairing_case_insensitive_for_uppercase_codes (db : Db) (s : ScreenRow)
    (b : Option String) (c C : String)
    (hC : jsToUpper C = C)
    (hs : db.filter (fun t => t.pairing_code = some C) = [s])
    (hid : ∀ t1 ∈ db, ∀ t2 ∈ db, t1.id = t2.id → t1 = t2) :
    (((handlePairing db b c).ok = true ∧
        (handlePairing db b c).binding = some s.id) ↔
      eqUpToCase c C = true) ∧
    (eqUpToCase c C = true →
      handlePairing db b c = ⟨clearPairingCode db s.id, some s.id, true⟩ ∧
      (∀ t ∈ clearPairingCode db s.id, t.id = s.id → t.pairing_code = none)) := by
  have hcase : eqUpToCase c C = true ↔ jsToUpper c = C := by
    rw [eqUpToCase, hC]
    simp
  have hsmem := mem_of_filter_eq_singleton hs
  have hspc : s.pairing_code = some C := by
    simpa using hsmem.2
  have hsucc : jsToUpper c = C →
      handlePairing db b c = ⟨clearPairingCode db s.id, some s.id, true⟩ := by
    intro hc
    rw [handlePairing, selectSingle]
    simp only [hc]
    rw [hs]
  constructor
  · constructor
    · rintro ⟨hok, hbind⟩
      rcases hsel : selectSingle db (fun t => t.pairing_code = some (jsToUpper c)) with
        _ | s'
      · rw [handlePairing, hsel] at hok
        simp at hok
      · have hf := filter_eq_of_selectSingle hsel
        have hmem := mem_of_filter_eq_singleton hf
        have hp : s'.pairing_code = some (jsToUpper c) := by
          simpa using hmem.2
        rw [handlePairing, hsel] at hbind
        have hids : s'.id = s.id := Option.some_injective _ hbind
        have hss : s' = s := hid s' hmem.1 s hsmem.1 hids
        rw [hss, hspc] at hp
        rw [hcase]
        exact (Option.some_injective _ hp).symm
    · intro hcc
      rw [hsucc (hcase.mp hcc)]
      exact ⟨rfl, rfl⟩
  · intro hcc
    refine ⟨hsucc (hcase.mp hcc), ?_⟩
    intro t ht htid
    obtain ⟨u, hu, rfl⟩ := List.mem_map.mp ht
    by_cases hui : u.id = s.id
    · simp [hui]
    · rw [if_neg hui] at htid ⊢
      exact absurd htid hui

/-- Witness for C4's amended theorem in a store where two screens hold
distinct active codes: the spec scenario — code `"AB12CD"` issued on `S1`,
submission `"ab12cd"` succeeds, binds to `S1`, and clears the code. -/
theorem pairing_case_insensitive_witness :
    handlePairing dbTwoCodes none "ab12cd" =
      ⟨clearPairingCode dbTwoCodes screenS1.id, some screenS1.id, true⟩ :=
  ((pairing_case_insensitive_for_uppercase_codes dbTwoCodes screenS1 none "ab12cd"
    "AB12CD" (by decide) (by decide) (by decide)).2 (by decide)).1
